import Mathlib

/-!
Verification development for the LLM-Book-LIB retrieval-augmented-generation
pipeline.  The definitions below are a shallow embedding of the Python source:

* `answer_verifier.py`  — Policy A citation cross-checking (`AnswerVerifier.verify_and_present`)
* `reranker.py`         — cross-encoder re-ranking (`ReRanker.rerank`)
* `rag_core.py`         — the streaming orchestrator (`RAGCore.stream_query_response`,
                          `RAGCore._format_context`)
* `client/client_components.py` — client-side `RAGCore` (`_rerank_documents`,
                          `_format_context`, `generate_answer`) and the Policy B
                          claim-level `AnswerVerifier.verify`
* `main.py` / `client/client.py` — the per-query drivers (`_handle_query`)
* `config.py` / `client/config.py` — configuration constants and prompt templates

External collaborators (vector store, cross-encoder, llama.cpp engine) are
parameters of the embedding: the store's hits, the relevance scores and the
engine's replies are inputs.  Console printing and logging are I/O glue and are
not modelled (the spec declares them out of scope).  Python floats appear only
as relevance scores and only their ordering is used, so scores are modelled as
rationals.
-/

namespace LLMBookLib

/-! ## Python string primitives

Strings are manipulated as `List Char`.  `pyIsSpace` is Python's `str.strip` /
regex `\s` whitespace class restricted to its ASCII members (the repository's
metadata and templates are produced by the code itself, so only these occur).
-/

def pyIsSpace (c : Char) : Bool :=
  c = ' ' || c = '\t' || c = '\n' || c = '\r' || c = '\x0b' || c = '\x0c'

/-- Python `str.strip()`: drop leading and trailing whitespace. -/
def pyStrip (s : List Char) : List Char :=
  ((s.dropWhile pyIsSpace).reverse.dropWhile pyIsSpace).reverse

/-- Python `str.strip()` on `String`. -/
def pyStripStr (s : String) : String :=
  String.mk (pyStrip s.toList)

/-- Python `str.upper()` (agrees with Python on ASCII, which is all the
verification logic inspects: it only looks for the substring `"EVET"`). -/
def pyUpper (s : List Char) : List Char :=
  s.map Char.toUpper

/-- Python's substring test `needle in hay`. -/
def pyInB (needle hay : List Char) : Bool :=
  decide (needle <:+: hay)

/-- Substring test on `String`s. -/
def pyInStr (needle hay : String) : Bool :=
  pyInB needle.toList hay.toList

/-! ## The citation-tag regular expression

`answer_verifier.py` extracts citations with
`re.findall(r"\[Kaynak: (.*?)\s*-\s*(.*?),\s*Sayfa:\s*(\d+)\]", answer)`.

The pattern is deterministic once the two non-greedy groups are resolved
shortest-first: each `\s*` is followed by a character that is never whitespace
(`-`, `S`, a digit), so backtracking it can never produce a different match,
and `(\d+)` is followed by `]`, never a digit.  `.` does not match a newline;
`\s` does.  The functions below implement exactly this search:
`tryTitle`/`tryAuthor` grow the corresponding non-greedy group one character at
a time (never across a newline), and the literal/whitespace pieces are matched
directly.  `\d` is ASCII digits (`Char.isDigit`), as in the citations the code
itself produces. -/

/-- Match a literal prefix, returning the rest of the input. -/
def expectLit : List Char → List Char → Option (List Char)
  | [], s => some s
  | _ :: _, [] => none
  | c :: cs, d :: ds => if c = d then expectLit cs ds else none

/-- Match `\s*(\d+)\]` : skip whitespace, read a maximal non-empty digit run,
then require `]`.  Returns the digits and the remaining input. -/
def matchPageAndClose (s : List Char) : Option (List Char × List Char) :=
  let s1 := s.dropWhile pyIsSpace
  let digits := s1.takeWhile Char.isDigit
  if digits.isEmpty then none
  else
    match s1.drop digits.length with
    | ']' :: rest => some (digits, rest)
    | _ => none

/-- Match `,\s*Sayfa:\s*(\d+)\]` after the author group. -/
def matchAfterAuthor (s : List Char) : Option (List Char × List Char) :=
  match s with
  | ',' :: rest =>
    match expectLit "Sayfa:".toList (rest.dropWhile pyIsSpace) with
    | some r2 => matchPageAndClose r2
    | none => none
  | _ => none

/-- Resolve the non-greedy author group `(.*?)`: try the shortest author first,
extending one (non-newline) character at a time.  Returns
`(author, page, rest)`.  (On empty input the completion attempt
`matchAfterAuthor []` always fails, so that case is `none` directly.) -/
def tryAuthor (acc : List Char) : List Char → Option (List Char × List Char × List Char)
  | [] => none
  | c :: cs =>
    match matchAfterAuthor (c :: cs) with
    | some (page, rest) => some (acc.reverse, page, rest)
    | none => if c = '\n' then none else tryAuthor (c :: acc) cs

/-- Match `\s*-\s*` then the author group and the tail of the tag. -/
def matchAfterTitle (s : List Char) : Option (List Char × List Char × List Char) :=
  match s.dropWhile pyIsSpace with
  | '-' :: r => tryAuthor [] (r.dropWhile pyIsSpace)
  | _ => none

/-- Resolve the non-greedy title group `(.*?)`, shortest first.  Returns
`((title, author, page), rest)`.  (`matchAfterTitle []` always fails, so the
empty case is `none` directly.) -/
def tryTitle (acc : List Char) : List Char → Option ((List Char × List Char × List Char) × List Char)
  | [] => none
  | c :: cs =>
    match matchAfterTitle (c :: cs) with
    | some (author, page, rest) => some ((acc.reverse, author, page), rest)
    | none => if c = '\n' then none else tryTitle (c :: acc) cs

/-- Attempt to match the whole citation tag at the head of the input. -/
def matchCitationAt (s : List Char) : Option ((List Char × List Char × List Char) × List Char) :=
  match expectLit "[Kaynak: ".toList s with
  | some rest => tryTitle [] rest
  | none => none

/-- `re.findall`: scan left to right, collecting non-overlapping matches and
resuming after each match.  `fuel` bounds the number of scan steps; every step
consumes at least one character, so `s.length` is always enough fuel (the
`fuel = 0` case is reached only with an empty remainder). -/
def findCitationsAux : Nat → List Char → List (List Char × List Char × List Char)
  | 0, _ => []
  | _ + 1, [] => []
  | fuel + 1, c :: cs =>
    match matchCitationAt (c :: cs) with
    | some (g, rest) => g :: findCitationsAux fuel rest
    | none => findCitationsAux fuel cs

/-- All citation-tag group triples found in `s`, in scan order. -/
def findCitations (s : List Char) : List (List Char × List Char × List Char) :=
  findCitationsAux s.length s

/-! `client_components.AnswerVerifier.verify` strips citation tags with
`re.sub(r'\[Kaynak:.*?\]', '', raw_answer)`.  The non-greedy `.*?` stops at the
first `]` and cannot cross a newline. -/

/-- Scan for the first `]` (failing on a newline or end of input); returns the
input after the `]`. -/
def subCloseScan : List Char → Option (List Char)
  | [] => none
  | c :: cs => if c = ']' then some cs else if c = '\n' then none else subCloseScan cs

/-- `re.sub(r'\[Kaynak:.*?\]', '', s)`: delete every match, keep everything
else.  Fuelled like `findCitationsAux`. -/
def pySubKaynakAux : Nat → List Char → List Char
  | 0, s => s
  | _ + 1, [] => []
  | fuel + 1, c :: cs =>
    match expectLit "[Kaynak:".toList (c :: cs) with
    | some r =>
      match subCloseScan r with
      | some rest => pySubKaynakAux fuel rest
      | none => c :: pySubKaynakAux fuel cs
    | none => c :: pySubKaynakAux fuel cs

def pySubKaynak (s : List Char) : List Char :=
  pySubKaynakAux s.length s

/-! ## Data model

Monolithic side (`rag_core.py`, `answer_verifier.py`): langchain `Document`s
carry a metadata dict; the code reads the keys `title`, `author`,
`source_file`, `page` with `metadata.get`, so the metadata is modelled as
optional fields and each access site applies the code's own default. -/

structure DocMetadata where
  title? : Option String
  author? : Option String
  source_file? : Option String
  page? : Option Int
deriving DecidableEq, Repr

structure Document where
  page_content : String
  metadata : DocMetadata
deriving DecidableEq, Repr

/-- `doc.metadata.get("title", "Bilinmiyor")` -/
def DocMetadata.titleD (m : DocMetadata) : String := m.title?.getD "Bilinmiyor"

/-- `doc.metadata.get("author", "Bilinmiyor")` -/
def DocMetadata.authorD (m : DocMetadata) : String := m.author?.getD "Bilinmiyor"

/-- `doc.metadata.get("page", 0)` -/
def DocMetadata.pageD (m : DocMetadata) : Int := m.page?.getD 0

/-- The deduplication identity used in `rag_core.stream_query_response`:
`(doc.page_content, doc.metadata.get('source_file'), doc.metadata.get('page'))`
(no defaults: missing keys stay `None`). -/
def docKey (d : Document) : String × Option String × Option Int :=
  (d.page_content, d.metadata.source_file?, d.metadata.page?)

/-- The provenance tuple `answer_verifier.py` builds for an evidence document:
`(metadata.get("title", "Bilinmiyor"), metadata.get("author", "Bilinmiyor"),
str(metadata.get("page", 0)))`.  `toString : Int → String` agrees with
Python's `str` on integers. -/
def provKey (d : Document) : String × String × String :=
  (d.metadata.titleD, d.metadata.authorD, toString d.metadata.pageD)

/-! Client side (`client/shared_utils.py`): `DocumentInfo` with a metadata
dict; the client code reads `book_title`, `author`, `page`. -/

structure CMetadata where
  book_title? : Option String
  author? : Option String
  page? : Option Int
deriving DecidableEq, Repr

structure DocumentInfo where
  page_content : String
  metadata : CMetadata
deriving DecidableEq, Repr

/-- `client/shared_utils.FinalResponse` (the `verified_sources` /
`unverified_sources` lists hold the appended metadata dicts). -/
structure FinalResponse where
  final_answer : String
  verified_sources : List CMetadata
  unverified_sources : List CMetadata
  is_fully_verified : Bool
  raw_llm_answer : String
deriving DecidableEq, Repr

/-! ## Configuration constants (from `config.py` and `client/config.py`) -/

/-- `config.AppConfig.RERANKER_TOP_N` (monolithic). -/
def RERANKER_TOP_N : Nat := 5

/-- `client/config.AppConfig.RERANKER_N`. -/
def RERANKER_N : Nat := 7

/-- The canonical "not found" sentence: rule 3 of the client
`GENERATION_PROMPT` instructs the model to emit exactly this sentence, and
`client_components.AnswerVerifier.verify` checks for it verbatim. -/
def canonicalNotFound : String := "Sağlanan belgelerde bu bilgi mevcut değil."

/-- The "no evidence" sentinel of the client context assembler
(`client_components.RAGCore._format_context`). -/
def noSourcesSentinel : String :=
  "Kullanıcının sorusunu yanıtlamak için hiçbir kaynak bulunamadı."

/-! ## Stable descending sort (Python `list.sort` / `sorted` with
`reverse=True`)

Python's sort is stable, and with `reverse=True` elements with equal keys keep
their input order; i.e. the result is ordered by (key descending, input
position ascending).  The embedding decorates each element with its input
index and sorts by that total lexicographic order (any sorted permutation
under it is unique, so the choice of algorithm is irrelevant). -/

/-- Decorate a list with indices starting at `i`. -/
def decorate (i : Nat) : List α → List (Nat × α)
  | [] => []
  | a :: as => (i, a) :: decorate (i + 1) as

/-- Key-descending, index-ascending order on decorated elements. -/
def sortRel (key : α → ℚ) (x y : Nat × α) : Prop :=
  key y.2 < key x.2 ∨ (key x.2 = key y.2 ∧ x.1 ≤ y.1)

instance (key : α → ℚ) : DecidableRel (sortRel key) := fun x y => by
  unfold sortRel; infer_instance

/-- Python `lst.sort(key=key, reverse=True)` (stable, descending). -/
def pySortDesc (key : α → ℚ) (l : List α) : List (Nat × α) :=
  (decorate 0 l).insertionSort (sortRel key)

/-! ## Re-rankers -/

/-- `reranker.ReRanker.rerank` (monolithic).  The cross-encoder is external;
its scores for the `(query, doc.page_content)` pairs enter as the
(order-aligned) list `scores`; `scored_docs = list(zip(scores, documents))` is
sorted stably by score descending and truncated to `top_n`.  Guard: Python's
`if not documents or not query: return []`. -/
def rerankAux (query : String) (scores : List ℚ) (documents : List Document)
    (top_n : Nat) : List (Nat × ℚ × Document) :=
  if documents = [] ∨ query = "" then []
  else (pySortDesc Prod.fst (scores.zip documents)).take top_n

def rerank (query : String) (scores : List ℚ) (documents : List Document)
    (top_n : Nat) : List Document :=
  (rerankAux query scores documents top_n).map (fun x => x.2.2)

/-- `client_components.RAGCore._rerank_documents`: guard is `if not docs`
only; `sorted(zip(docs, scores), key=lambda x: x[1], reverse=True)` then
`[:RERANKER_N]`, keeping the docs.  Here the zipped pairs are `(doc, score)`
and the sort key is the second component.  `clientRerankAux` is the decorated
sorted-and-truncated list, of which the output is the projection. -/
def clientRerankAux (scores : List ℚ) (docs : List DocumentInfo) :
    List (Nat × DocumentInfo × ℚ) :=
  if docs = [] then []
  else (pySortDesc Prod.snd (docs.zip scores)).take RERANKER_N

def clientRerank (scores : List ℚ) (docs : List DocumentInfo) : List DocumentInfo :=
  (clientRerankAux scores docs).map (fun x => x.2.1)

/-! ## Context assemblers -/

/-- One block of `rag_core.RAGCore._format_context`:
`f"[Kaynak: {title} - {author}, Sayfa: {page}]\n{doc.page_content}"`. -/
def monoContextPart (d : Document) : String :=
  "[Kaynak: " ++ d.metadata.titleD ++ " - " ++ d.metadata.authorD ++
    ", Sayfa: " ++ toString d.metadata.pageD ++ "]\n" ++ d.page_content

/-- `rag_core.RAGCore._format_context`: blocks joined by `"\n\n---\n\n"`.
Note there is no empty-input guard: `"\n\n---\n\n".join([])` is `""`. -/
def monoFormatContext (documents : List Document) : String :=
  String.intercalate "\n\n---\n\n" (documents.map monoContextPart)

/-- One block of `client_components.RAGCore._format_context`:
`f"[Kaynak: {title} ({author}), Sayfa: {page}]\n{doc.page_content}"` with
defaults `'Bilinmeyen Kitap'`, `'Bilinmeyen Yazar'`, `'Bilinmeyen Sayfa'`. -/
def clientContextPart (d : DocumentInfo) : String :=
  "[Kaynak: " ++ d.metadata.book_title?.getD "Bilinmeyen Kitap" ++ " (" ++
    d.metadata.author?.getD "Bilinmeyen Yazar" ++ "), Sayfa: " ++
    (match d.metadata.page? with
     | some p => toString p
     | none => "Bilinmeyen Sayfa") ++ "]\n" ++ d.page_content

/-- `client_components.RAGCore._format_context`: returns the fixed sentinel on
an empty list, otherwise the joined blocks. -/
def clientFormatContext (docs : List DocumentInfo) : String :=
  if docs = [] then noSourcesSentinel
  else String.intercalate "\n\n---\n\n" (docs.map clientContextPart)

/-! ## Retrieval-stage deduplication (`rag_core.stream_query_response`)

`unique_docs_map = {(content, source_file, page): doc for doc in retrieved}` —
an insertion-ordered dict: a repeated key overwrites the stored value but
keeps its original position; `list(….values())` then yields one document per
distinct key. -/

/-- Insert into an insertion-ordered association list, Python-dict style. -/
def upsert (k : κ) (v : α) [DecidableEq κ] : List (κ × α) → List (κ × α)
  | [] => [(k, v)]
  | (k', v') :: rest => if k = k' then (k, v) :: rest else (k', v') :: upsert k v rest

/-- The dict comprehension over the retrieved documents. -/
def uniqueDocsMap (retrieved : List Document) : List ((String × Option String × Option Int) × Document) :=
  retrieved.foldl (fun m d => upsert (docKey d) d m) []

/-- `unique_docs = list(unique_docs_map.values())`. -/
def dedupDocs (retrieved : List Document) : List Document :=
  (uniqueDocsMap retrieved).map Prod.snd

/-! ## Streaming orchestrator (`rag_core.RAGCore.stream_query_response`)

External inputs: the retriever's hits for the query (`retrieved`), the
cross-encoder scores (via `ce`), and the generation engine's streamed
fragments (`llmStream`; the code keeps `chunk["choices"][0].get("text", "")`
and yields it only when non-empty).  The record also captures whether the
engine was invoked and which document list the generation context was built
from, so that the short-circuit and same-bundle properties are statable. -/

inductive StreamEvent where
  | docs (l : List Document)
  | token (t : String)
deriving DecidableEq, Repr

structure StreamRun where
  events : List StreamEvent
  contextBuilt : Option String
  llmCalled : Bool
deriving DecidableEq, Repr

def streamQueryResponse (query : String) (retrieved : List Document)
    (ce : String → String → ℚ) (llmStream : List String) : StreamRun :=
  let uniq := dedupDocs retrieved
  if uniq = [] then ⟨[.docs []], none, false⟩
  else
    let reranked := rerank query (uniq.map (fun d => ce query d.page_content)) uniq RERANKER_TOP_N
    if reranked = [] then ⟨[.docs []], none, false⟩
    else
      ⟨.docs reranked :: (llmStream.filter (fun t => !(t == ""))).map .token,
       some (monoFormatContext reranked), true⟩

/-! ## Policy A: citation cross-check (`answer_verifier.AnswerVerifier.verify_and_present`) -/

/-- The whitespace-trimmed citation set of an answer:
`{(title.strip(), author.strip(), page.strip()) for … in findall(...)}`. -/
def answerCitations (final_answer : String) : Finset (String × String × String) :=
  ((findCitations final_answer.toList).map
    (fun g => (String.mk (pyStrip g.1), String.mk (pyStrip g.2.1), String.mk (pyStrip g.2.2)))).toFinset

/-- The provenance key set of the evidence bundle (`source_docs_map.keys()`). -/
def evidenceProvenances (source_docs : List Document) : Finset (String × String × String) :=
  (source_docs.map provKey).toFinset

/-- Outcome of `verify_and_present`: either the dedicated "no references
found" presentation, or the verified / hallucinated citation sets (a non-empty
hallucinated set only prints a warning — the function never raises). -/
inductive VerifyOutcome where
  | unverifiedPresentation
  | verdict (verified hallucinated : Finset (String × String × String))
deriving DecidableEq

def verifyAndPresent (final_answer : String) (source_docs : List Document) : VerifyOutcome :=
  let refs := findCitations final_answer.toList
  if refs = [] then .unverifiedPresentation
  else
    let citations := answerCitations final_answer
    let provs := evidenceProvenances source_docs
    .verdict (citations ∩ provs) (citations \ provs)

/-! ## Prompt templates (`client/config.py`)

`str.format` on the templates splices the context/question (resp. source
chunk/claim) into the fixed surrounding text; the builders below concatenate
the same literal segments. -/

def clientGenPromptPre : String := "<|begin_of_text|><|start_header_id|>system<|end_header_id|>
<TALIMATLAR>
Sen, verilen kaynak metinler konusunda uzman bir akademik asistansın. Görevin, kullanıcıdan gelen SORU'yu aşağıdaki kurallara harfiyen uyarak yanıtlamaktır.

**KESİN KURALLAR:**
1.  **YALNIZCA KAYNAKLARI KULLAN:** Cevabını SADECE ve YALNIZCA aşağıda <KAYNAKLAR> etiketi içinde verilen metinlere dayandır. Kendi ön bilgini veya internetten öğrendiklerini KESİNLİKLE kullanma.
2.  **KAYNAK GÖSTERME ZORUNLULUĞU:** Cevabına eklediğin HER BİR cümle veya iddia için, o bilginin alındığı metin parçasının başındaki referansı (örn: `[Kaynak: dosya.pdf, Sayfa: 123]`) cümlenin sonuna ekle. Bu kural istisnasızdır.
3.  **BİLGİ YOKSA, \"YOK\" DE:** Eğer <KAYNAKLAR> bölümündeki metinler SORU'yu yanıtlamak için yeterli veya ilgili bilgi içermiyorsa, başka hiçbir açıklama yapmadan SADECE ve TAM OLARAK şu cevabı ver: \"Sağlanan belgelerde bu bilgi mevcut değil.\"
4.  **SENTEZ ve KARŞILAŞTIRMA:** Eğer soru karşılaştırma veya özetleme gerektiriyorsa, farklı kaynaklardaki bilgileri birleştirerek tutarlı bir cevap oluştur, ancak her zaman 2. kurala uyarak kaynak göstermeye devam et.
5.  **YORUMSUZ OL:** Cevabına kendi yorumunu, çıkarımını veya görüşünü asla ekleme. Sadece kaynaklarda ne yazıyorsa onu aktar.
</TALIMATLAR><|eot_id|><|start_header_id|>user<|end_header_id|>

<KAYNAKLAR>
"

def clientGenPromptMid : String := "
</KAYNAKLAR>

<SORU>
"

def clientGenPromptPost : String := "
</SORU><|eot_id|><|start_header_id|>assistant<|end_header_id|>
"

/-- `AppConfig.GENERATION_PROMPT.format(context=…, question=…)` (client). -/
def clientGenerationPrompt (context question : String) : String :=
  clientGenPromptPre ++ context ++ clientGenPromptMid ++ question ++ clientGenPromptPost

def verifPromptPre : String := "<|begin_of_text|><|start_header_id|>system<|end_header_id|>
<GÖREV>
Aşağıdaki 'İDDİA' metninin, verilen 'KAYNAK METİN' tarafından %100 oranında, hiçbir ek yorum veya bilgi katmadan desteklenip desteklenmediğini analiz et.
Yanıtın SADECE 'EVET' veya 'HAYIR' olmalıdır. Başka hiçbir açıklama yapma.
</GÖREV><|eot_id|><|start_header_id|>user<|end_header_id|>

<KAYNAK_METİN>
"

def verifPromptMid : String := "
</KAYNAK_METİN>

<İDDİA>
"

def verifPromptPost : String := "
</İDDİA><|eot_id|><|start_header_id|>assistant<|end_header_id|>
"

/-- `AppConfig.VERIFICATION_PROMPT.format(source_chunk=…, generated_answer=…)`. -/
def verificationPrompt (source_chunk generated_answer : String) : String :=
  verifPromptPre ++ source_chunk ++ verifPromptMid ++ generated_answer ++ verifPromptPost

/-! ## Policy B: claim-level verification
(`client_components.AnswerVerifier.verify`)

The generation engine is a fallible external collaborator,
`llm : String → Except ε String` from prompt to reply
(`response['choices'][0]['text']`); a Python exception propagates, which the
`Except` monad's short-circuit models.

The module `client_components.py` as shipped has two unconditional runtime
faults on the non-canonical path of `verify`:

* it never imports `re`, yet `verify` evaluates
  `claim = re.sub(r'\[Kaynak:.*?\]', '', raw_answer).strip()` right after the
  canonical-sentence check — a `NameError` for the name `re` is raised there
  on every answer that does not contain the canonical sentence, before the
  empty-claim check, before any engine call and before the per-chunk loop;
* were that repaired, `print(self.formatter.color(...))` would raise an
  `AttributeError` next (`AnswerVerifier.__init__` sets `_formatter`, not
  `formatter`) — still before the loop.

These uncaught exceptions are modelled as values of `PyRuntimeError`. -/

/-- An uncaught Python runtime error, carrying the unresolved name
(`NameError`) or the missing attribute (`AttributeError`). -/
inductive PyRuntimeError where
  | nameError (name : String)
  | attributeError (attr : String)
deriving DecidableEq, Repr

/-- The per-chunk classification:
`"EVET" in response['choices'][0]['text'].strip().upper()`. -/
def replyAffirms (reply : String) : Bool :=
  pyInB "EVET".toList (pyUpper (pyStrip reply.toList))

/-- The claim string: `re.sub(r'\[Kaynak:.*?\]', '', raw_answer).strip()`. -/
def stripClaim (raw_answer : String) : String :=
  pyStripStr (String.mk (pySubKaynak raw_answer.toList))

/-- The `for doc in source_docs:` loop of `verify`: one engine call per chunk,
appending `doc.metadata` to the verified list when the reply affirms, to the
unverified list otherwise; an erroring call propagates (aborting the loop), as
an uncaught Python exception does. -/
def verifyLoop {ε : Type} (llm : String → Except ε String) (claim : String)
    (acc : List CMetadata × List CMetadata) :
    List DocumentInfo → Except ε (List CMetadata × List CMetadata)
  | [] => .ok acc
  | doc :: rest =>
    match llm (verificationPrompt doc.page_content claim) with
    | .error e => .error e
    | .ok reply =>
      if replyAffirms reply then verifyLoop llm claim (acc.1 ++ [doc.metadata], acc.2) rest
      else verifyLoop llm claim (acc.1, acc.2 ++ [doc.metadata]) rest

/-- `client_components.AnswerVerifier.verify` as shipped.  The canonical
short-circuit (lines 197–203) checks the sentence by substring containment and
returns a fully-verified response without touching the engine.  On every other
answer the very next effective statement is `claim = re.sub(...)` (line 211),
which raises `NameError: name 're' is not defined` — the module has no
`import re` — so the function errors before the empty-claim check, before any
engine call and before the per-chunk loop, whatever the engine and whatever
the evidence bundle (the `llm` parameter is never consulted). -/
def clientVerify {ε : Type} (llm : String → Except ε String) (raw_answer : String)
    (source_docs : List DocumentInfo) : Except PyRuntimeError FinalResponse :=
  if pyInStr canonicalNotFound raw_answer then
    .ok ⟨raw_answer, [], [], true, raw_answer⟩
  else
    .error (.nameError "re")

/-- Lines 223–261 of `client_components.py` — the per-chunk loop and the
verdict `is_fully_verified = len(verified_sources) > 0 and
len(unverified_sources) == 0` — as written.  This code is unreachable in the
module as shipped (the `NameError` at line 211 fires first, and the
`self.formatter` `AttributeError` at line 221 would fire next); it is embedded
separately, for a given claim string, so the verdict rule the dead code
expresses can be stated. -/
def perChunkVerdict {ε : Type} (llm : String → Except ε String)
    (raw_answer claim : String) (source_docs : List DocumentInfo) :
    Except ε FinalResponse :=
  match verifyLoop llm claim ([], []) source_docs with
  | .error e => .error e
  | .ok acc =>
    .ok ⟨raw_answer, acc.1, acc.2,
         decide (0 < acc.1.length) && decide (acc.2.length = 0), raw_answer⟩

/-! ## Client answer generation and the two per-query drivers -/

/-- `client_components.RAGCore.generate_answer` as shipped: it reranks the
retrieved documents, builds the context from the reranked list and fills the
generation prompt, but the statement
`print(self.formatter.color("LLM cevap üretiyor...", "blue"))` (line 164)
raises `AttributeError` — `RAGCore.__init__` sets `self._formatter`, not
`self.formatter` — *before* the engine is invoked.  The function therefore
never calls the engine (`llm` is unused) and never returns the
`(raw_answer, reranked_docs)` pair. -/
def clientGenerateAnswer (ce : String → String → ℚ) (llm : String → String)
    (query : String) (retrieved : List DocumentInfo) :
    Except PyRuntimeError (String × List DocumentInfo) :=
  let reranked := clientRerank (retrieved.map (fun d => ce query d.page_content)) retrieved
  let context := clientFormatContext reranked
  let prompt := clientGenerationPrompt context query
  .error (.attributeError "formatter")

/-- The outcome of one client query cycle: an empty retrieval result (early
return), an uncaught exception propagating out of the handler, or a verified
bundle reaching the presentation step. -/
inductive ClientQueryOutcome where
  | noDocs
  | crashed (e : PyRuntimeError)
  | verified (source_docs : List DocumentInfo) (result : Except PyRuntimeError FinalResponse)

/-- `client/client.TerminalApplication._handle_query`: fetch documents from
the server (`retrieved`), bail out on an empty result, otherwise run
`generate_answer` — whose exception, uncaught in `_handle_query`, propagates
(`crashed`) — and only on a normal return hand the returned bundle to
`verify`. -/
def clientHandleQuery {ε : Type} (ce : String → String → ℚ) (llmGen : String → String)
    (llmVer : String → Except ε String) (query : String) (retrieved : List DocumentInfo) :
    ClientQueryOutcome :=
  if retrieved = [] then .noDocs
  else
    match clientGenerateAnswer ce llmGen query retrieved with
    | .error e => .crashed e
    | .ok out => .verified out.2 (clientVerify llmVer out.1 out.2)

/-- The full answer text accumulated from the stream's token events, in
order. -/
def tokensText (events : List StreamEvent) : String :=
  String.join (events.filterMap (fun e => match e with
    | .token t => some t
    | .docs _ => none))

/-- `main.MainApplication._handle_query`: take the stream's first event as the
evidence bundle, return early if it is empty, accumulate the remaining token
events into the final answer and hand both to the Policy A verifier.  Returns
the pair (documents handed to the verifier, verification outcome). -/
def monoHandleQuery (query : String) (retrieved : List Document)
    (ce : String → String → ℚ) (llmStream : List String) :
    Option (List Document × VerifyOutcome) :=
  let run := streamQueryResponse query retrieved ce llmStream
  match run.events with
  | .docs [] :: _ => none
  | .docs l :: rest => some (l, verifyAndPresent (tokensText rest) l)
  | _ => none

/-! ## Helper lemmas: the insertion-ordered dict -/

theorem upsert_map_fst [DecidableEq κ] (k : κ) (v : α) (m : List (κ × α)) :
    (upsert k v m).map Prod.fst =
      if k ∈ m.map Prod.fst then m.map Prod.fst else m.map Prod.fst ++ [k] := by
  induction m with
  | nil => simp [upsert]
  | cons hd tl ih =>
    obtain ⟨k', v'⟩ := hd
    by_cases h : k = k'
    · subst h; simp [upsert]
    · simp only [upsert, if_neg h, List.map_cons, List.mem_cons]
      rw [ih]
      by_cases hm : k ∈ tl.map Prod.fst
      · simp [hm, h]
      · simp [hm, h]

theorem upsert_keys_nodup [DecidableEq κ] (k : κ) (v : α) (m : List (κ × α))
    (h : (m.map Prod.fst).Nodup) : ((upsert k v m).map Prod.fst).Nodup := by
  rw [upsert_map_fst]
  by_cases hm : k ∈ m.map Prod.fst
  · simpa [hm]
  · simpa [hm, List.nodup_append] using h

theorem foldl_upsert_keys_nodup [DecidableEq κ] (key : α → κ) :
    ∀ (l : List α) (m : List (κ × α)), (m.map Prod.fst).Nodup →
      ((l.foldl (fun m d => upsert (key d) d m) m).map Prod.fst).Nodup := by
  intro l
  induction l with
  | nil => intro m h; simpa using h
  | cons d ds ih =>
    intro m h
    exact ih _ (upsert_keys_nodup _ _ _ h)

theorem foldl_upsert_keys_toFinset [DecidableEq κ] (key : α → κ) :
    ∀ (l : List α) (m : List (κ × α)),
      ((l.foldl (fun m d => upsert (key d) d m) m).map Prod.fst).toFinset =
        (m.map Prod.fst).toFinset ∪ (l.map key).toFinset := by
  intro l
  induction l with
  | nil => intro m; simp
  | cons d ds ih =>
    intro m
    have step : (d :: ds).foldl (fun m d => upsert (key d) d m) m =
        ds.foldl (fun m d => upsert (key d) d m) (upsert (key d) d m) := rfl
    rw [step, ih, upsert_map_fst]
    by_cases hm : key d ∈ m.map Prod.fst
    · rw [if_pos hm]
      ext x
      simp only [Finset.mem_union, List.mem_toFinset, List.map_cons, List.mem_cons]
      constructor
      · rintro (h | h)
        · exact Or.inl h
        · exact Or.inr (Or.inr h)
      · rintro (h | h | h)
        · exact Or.inl h
        · exact Or.inl (h ▸ hm)
        · exact Or.inr h
    · rw [if_neg hm]
      ext x
      simp only [Finset.mem_union, List.mem_toFinset, List.mem_append,
        List.mem_singleton, List.map_cons, List.mem_cons]
      tauto

/-! ## C6: the dedup property -/

/-- **C6.** For every retrieved candidate list, the deduplicated list the
retrieval stage produces has exactly one document per distinct
`(content, source_file, page)` identity tuple — its length is the number of
distinct identity tuples of the input — and the orchestrator applies the
reranker to that deduplicated list (the stream's first event is the reranked
deduplicated list, whatever the query, scores and token stream). -/
theorem c6_dedup_property (retrieved : List Document) (query : String)
    (ce : String → String → ℚ) (llmStream : List String) :
    (dedupDocs retrieved).length = ((retrieved.map docKey).dedup).length ∧
    (streamQueryResponse query retrieved ce llmStream).events.head? =
      some (.docs (rerank query
        ((dedupDocs retrieved).map (fun d => ce query d.page_content))
        (dedupDocs retrieved) RERANKER_TOP_N)) := by
  constructor
  · have hnodup : ((uniqueDocsMap retrieved).map Prod.fst).Nodup :=
      foldl_upsert_keys_nodup docKey retrieved ([]) (by simp)
    have hkeys : ((uniqueDocsMap retrieved).map Prod.fst).toFinset =
        ((([] : List ((String × Option String × Option Int) × Document)).map Prod.fst).toFinset ∪
          (retrieved.map docKey).toFinset) :=
      foldl_upsert_keys_toFinset docKey retrieved ([])
    have hlen : (dedupDocs retrieved).length =
        ((uniqueDocsMap retrieved).map Prod.fst).length := by
      simp [dedupDocs]
    rw [hlen, ← List.toFinset_card_of_nodup hnodup, hkeys]
    simp [← List.card_toFinset]
  · unfold streamQueryResponse
    by_cases h1 : dedupDocs retrieved = []
    · simp only [h1, if_pos rfl]
      rw [show rerank query (([] : List Document).map (fun d => ce query d.page_content))
            [] RERANKER_TOP_N = [] from by simp [rerank, rerankAux]]
      rfl
    · simp only [if_neg h1]
      by_cases h2 : rerank query ((dedupDocs retrieved).map (fun d => ce query d.page_content))
          (dedupDocs retrieved) RERANKER_TOP_N = []
      · simp [h2]
      · simp [h2]

/-! ## C7: context emptiness (corrected) -/

/-- **C7, counterexample.**  The claim states that the Context Assembler's
format function returns the fixed non-empty "no evidence" sentinel on an empty
chunk list; but the monolithic `rag_core.RAGCore._format_context` has no
empty-input guard and returns the empty string on `[]`. -/
theorem c7_counterexample : monoFormatContext [] = "" := by
  simp [monoFormatContext, String.intercalate]

/-- **C7, amended.**  Given an empty chunk list, the client Context Assembler
(`client_components.RAGCore._format_context`) returns the fixed non-empty
"no evidence" sentinel; the monolithic `rag_core.RAGCore._format_context`
instead returns the empty string (the monolithic orchestrator only calls it on
non-empty reranked lists, having short-circuited empty evidence earlier). -/
theorem c7_context_emptiness_amended :
    clientFormatContext [] = noSourcesSentinel ∧ noSourcesSentinel ≠ "" ∧
      monoFormatContext [] = "" := by
  refine ⟨rfl, by decide, ?_⟩
  simp [monoFormatContext, String.intercalate]

/-! ## C1: Policy A citation verification -/

/-- **C1.** Policy A (`answer_verifier.AnswerVerifier.verify_and_present`):
for every answer and evidence bundle, the verifier extracts the bracketed
citation tags of the fixed grammar, trims each field, and reports
`verified = answer_citations ∩ evidence_provenances` and
`hallucinated = answer_citations − evidence_provenances`, where an evidence
provenance is the `(title, author, str(page))` tuple; a hallucinated citation
is only reported, never an error, and an answer with no tags gets the
dedicated "unverified" presentation.  Concretely: with evidence provenance
`(title = "T", author = "A", page = 5)`, an answer citing `Sayfa: 5` lands in
`verified` with `hallucinated` empty; the same answer citing page 99 lands in
`hallucinated`; and a cited page `"007"` never matches an evidence page whose
string form is `"7"` (string comparison, not numeric). -/
theorem c1_policyA_citation_verification :
    (∀ (final_answer : String) (source_docs : List Document),
      verifyAndPresent final_answer source_docs =
        if findCitations final_answer.toList = [] then .unverifiedPresentation
        else .verdict (answerCitations final_answer ∩ evidenceProvenances source_docs)
                      (answerCitations final_answer \ evidenceProvenances source_docs)) ∧
    verifyAndPresent "Cevap cümlesi. [Kaynak: T - A, Sayfa: 5]"
        [⟨"İçerik metni.", ⟨some "T", some "A", some "kitap.pdf", some 5⟩⟩] =
      .verdict {("T", "A", "5")} ∅ ∧
    verifyAndPresent "Cevap cümlesi. [Kaynak: T - A, Sayfa: 99]"
        [⟨"İçerik metni.", ⟨some "T", some "A", some "kitap.pdf", some 5⟩⟩] =
      .verdict ∅ {("T", "A", "99")} ∧
    verifyAndPresent "Cevap cümlesi. [Kaynak: T - A, Sayfa: 007]"
        [⟨"İçerik metni.", ⟨some "T", some "A", some "kitap.pdf", some 7⟩⟩] =
      .verdict ∅ {("T", "A", "007")} := by
  refine ⟨fun final_answer source_docs => rfl, by decide, by decide, by decide⟩

/-! ## C5: the canonical negative short-circuit -/

/-- **C5.** An answer exactly equal to the configured canonical "not found"
sentence is reported fully verified (`is_fully_verified = true`) by the
Policy B verifier, for every evidence bundle and every generation engine —
even one whose every verification call would error — so no per-chunk
verification call is consulted, and the answer itself is passed through as
`final_answer`. -/
theorem c5_canonical_negative_short_circuit (ε : Type)
    (llm : String → Except ε String) (source_docs : List DocumentInfo) :
    clientVerify llm canonicalNotFound source_docs =
      .ok ⟨canonicalNotFound, [], [], true, canonicalNotFound⟩ := by
  unfold clientVerify
  rw [show pyInStr canonicalNotFound canonicalNotFound = true from by decide]
  simp

/-! ## C10: citation tags are not round-trip safe when a title contains the
separator -/

/-- **C10.** There is an evidence chunk whose title contains `" - "` (here
`title = "X - Y"`, `author = "A"`, `page = 3`) such that an answer which
reproduces verbatim the citation header rendered by the monolithic Context
Assembler is still classified as hallucinated by Policy A: the non-greedy
regex splits at the first `" - "`, parsing `("X", "Y - A", "3")`, which
differs from the chunk's provenance `("X - Y", "A", "3")`; so `verified` is
empty and the parsed citation lands in `hallucinated`. -/
theorem c10_title_separator_breaks_roundtrip :
    pyInStr " - " "X - Y" = true ∧
    monoFormatContext [⟨"Gövde metni.", ⟨some "X - Y", some "A", some "kitap.pdf", some 3⟩⟩] =
      "[Kaynak: X - Y - A, Sayfa: 3]\nGövde metni." ∧
    evidenceProvenances [⟨"Gövde metni.", ⟨some "X - Y", some "A", some "kitap.pdf", some 3⟩⟩] =
      {("X - Y", "A", "3")} ∧
    answerCitations "[Kaynak: X - Y - A, Sayfa: 3]\nGövde metni." = {("X", "Y - A", "3")} ∧
    verifyAndPresent "[Kaynak: X - Y - A, Sayfa: 3]\nGövde metni."
        [⟨"Gövde metni.", ⟨some "X - Y", some "A", some "kitap.pdf", some 3⟩⟩] =
      .verdict ∅ {("X", "Y - A", "3")} := by
  refine ⟨by decide, by decide, by decide, by decide, by decide⟩

/-! ## Helper lemmas: the stable descending sort -/

instance sortRel_total (key : α → ℚ) : IsTotal (Nat × α) (sortRel key) := by
  constructor
  intro x y
  rcases lt_trichotomy (key x.2) (key y.2) with h | h | h
  · exact Or.inr (Or.inl h)
  · rcases Nat.le_total x.1 y.1 with h1 | h1
    · exact Or.inl (Or.inr ⟨h, h1⟩)
    · exact Or.inr (Or.inr ⟨h.symm, h1⟩)
  · exact Or.inl (Or.inl h)

instance sortRel_trans (key : α → ℚ) : IsTrans (Nat × α) (sortRel key) := by
  constructor
  rintro x y z (hxy | ⟨hxy, hxy1⟩) (hyz | ⟨hyz, hyz1⟩)
  · exact Or.inl (hxy.trans' hyz)
  · exact Or.inl (hyz ▸ hxy)
  · exact Or.inl (hxy ▸ hyz)
  · exact Or.inr ⟨hxy.trans hyz, hxy1.trans hyz1⟩

theorem decorate_map_snd (i : Nat) (l : List α) : (decorate i l).map Prod.snd = l := by
  induction l generalizing i with
  | nil => rfl
  | cons a as ih => simp [decorate, ih]

theorem decorate_le_fst (i : Nat) (l : List α) : ∀ x ∈ decorate i l, i ≤ x.1 := by
  induction l generalizing i with
  | nil => intro x hx; simp [decorate] at hx
  | cons a as ih =>
    intro x hx
    simp only [decorate, List.mem_cons] at hx
    rcases hx with rfl | hx
    · exact Nat.le_refl i
    · exact Nat.le_of_succ_le (ih (i + 1) x hx)

theorem decorate_pairwise_fst (i : Nat) (l : List α) :
    (decorate i l).Pairwise (fun x y => x.1 < y.1) := by
  induction l generalizing i with
  | nil => exact List.Pairwise.nil
  | cons a as ih =>
    refine List.Pairwise.cons ?_ (ih (i + 1))
    intro x hx
    exact Nat.lt_of_succ_le (decorate_le_fst (i + 1) as x hx)

theorem decorate_map_fst_nodup (i : Nat) (l : List α) :
    ((decorate i l).map Prod.fst).Nodup :=
  List.pairwise_map.mpr ((decorate_pairwise_fst i l).imp fun h => Nat.ne_of_lt h)

theorem map_snd_zip_sublist : ∀ (l1 : List β) (l2 : List α),
    ((l1.zip l2).map Prod.snd).Sublist l2 := by
  intro l1
  induction l1 with
  | nil => intro l2; simp
  | cons b bs ih =>
    intro l2
    cases l2 with
    | nil => simp
    | cons a as => simpa [List.zip_cons_cons] using (ih as).cons₂ a

theorem map_fst_zip_sublist : ∀ (l1 : List α) (l2 : List β),
    ((l1.zip l2).map Prod.fst).Sublist l1 := by
  intro l1
  induction l1 with
  | nil => intro l2; simp
  | cons a as ih =>
    intro l2
    cases l2 with
    | nil => simp
    | cons b bs => simpa [List.zip_cons_cons] using (ih bs).cons₂ a

/-- The output of the monolithic reranker is obtained from the decorated
sorted list by projection. -/
theorem rerank_eq_map_aux (query : String) (scores : List ℚ) (docs : List Document)
    (n : Nat) : rerank query scores docs n = (rerankAux query scores docs n).map (fun x => x.2.2) :=
  rfl

theorem rerank_subperm (query : String) (scores : List ℚ) (docs : List Document)
    (n : Nat) : (rerank query scores docs n).Subperm docs := by
  unfold rerank rerankAux
  by_cases h : docs = [] ∨ query = ""
  · simp only [if_pos h, List.map_nil]
    exact List.nil_subperm
  · simp only [if_neg h]
    unfold pySortDesc
    set D := decorate 0 (scores.zip docs) with hD
    set S := D.insertionSort (sortRel Prod.fst) with hS
    have h1 : ((S.take n).map (fun x : Nat × ℚ × Document => x.2.2)).Sublist
        (S.map (fun x : Nat × ℚ × Document => x.2.2)) :=
      (List.take_sublist n S).map _
    have h2 : (S.map (fun x : Nat × ℚ × Document => x.2.2)).Perm
        (D.map (fun x : Nat × ℚ × Document => x.2.2)) :=
      (D.perm_insertionSort (sortRel Prod.fst)).map _
    have h3 : D.map (fun x : Nat × ℚ × Document => x.2.2) =
        (scores.zip docs).map Prod.snd := by
      have : (fun x : Nat × ℚ × Document => x.2.2) = Prod.snd ∘ Prod.snd := rfl
      rw [this, ← List.map_map, decorate_map_snd]
    have h4 : ((scores.zip docs).map Prod.snd).Sublist docs := map_snd_zip_sublist _ _
    exact h1.subperm.trans (h2.subperm.trans (h3 ▸ h4.subperm))

theorem rerank_length_le (query : String) (scores : List ℚ) (docs : List Document)
    (n : Nat) : (rerank query scores docs n).length ≤ n := by
  unfold rerank rerankAux
  by_cases h : docs = [] ∨ query = ""
  · simp [if_pos h]
  · simp only [if_neg h, List.length_map]
    exact (List.length_take_le n _)

/-- The decorated reranker output is strictly ordered by (score descending,
input position ascending): a later element has a strictly smaller score, or an
equal score and a strictly later input position (Python's stable descending
sort). -/
theorem rerankAux_pairwise (query : String) (scores : List ℚ) (docs : List Document)
    (n : Nat) :
    (rerankAux query scores docs n).Pairwise
      (fun x y => y.2.1 < x.2.1 ∨ (x.2.1 = y.2.1 ∧ x.1 < y.1)) := by
  unfold rerankAux
  by_cases h : docs = [] ∨ query = ""
  · simp [if_pos h]
  · simp only [if_neg h]
    unfold pySortDesc
    set D := decorate 0 (scores.zip docs) with hD
    set S := D.insertionSort (sortRel Prod.fst) with hS
    have hsorted : S.Pairwise (sortRel Prod.fst) :=
      D.sorted_insertionSort (sortRel Prod.fst)
    have hnodup : (S.map Prod.fst).Nodup := by
      have hperm : (S.map Prod.fst).Perm (D.map Prod.fst) :=
        (D.perm_insertionSort (sortRel Prod.fst)).map _
      exact hperm.nodup_iff.mpr (decorate_map_fst_nodup 0 _)
    have hne : S.Pairwise (fun x y : Nat × ℚ × Document => x.1 ≠ y.1) :=
      List.pairwise_map.mp hnodup
    have hcomb := hsorted.and hne
    have htake := hcomb.sublist (List.take_sublist n S)
    refine htake.imp ?_
    rintro x y ⟨hr | ⟨he, hle⟩, hne1⟩
    · exact Or.inl hr
    · exact Or.inr ⟨he, Nat.lt_of_le_of_ne hle hne1⟩

/-! The same refinement facts for the client reranker
(`client_components.RAGCore._rerank_documents`): there the zipped pairs are
`(doc, score)`, the sort key is the score (second component), truncation is to
`RERANKER_N`, and the only guard is the empty-candidate one. -/

theorem clientRerank_eq_map_aux (scores : List ℚ) (docs : List DocumentInfo) :
    clientRerank scores docs = (clientRerankAux scores docs).map (fun x => x.2.1) :=
  rfl

theorem clientRerank_subperm (scores : List ℚ) (docs : List DocumentInfo) :
    (clientRerank scores docs).Subperm docs := by
  unfold clientRerank clientRerankAux
  by_cases h : docs = []
  · simp only [if_pos h, List.map_nil]
    exact List.nil_subperm
  · simp only [if_neg h]
    unfold pySortDesc
    set D := decorate 0 (docs.zip scores) with hD
    set S := D.insertionSort (sortRel Prod.snd) with hS
    have h1 : ((S.take RERANKER_N).map (fun x : Nat × DocumentInfo × ℚ => x.2.1)).Sublist
        (S.map (fun x : Nat × DocumentInfo × ℚ => x.2.1)) :=
      (List.take_sublist RERANKER_N S).map _
    have h2 : (S.map (fun x : Nat × DocumentInfo × ℚ => x.2.1)).Perm
        (D.map (fun x : Nat × DocumentInfo × ℚ => x.2.1)) :=
      (D.perm_insertionSort (sortRel Prod.snd)).map _
    have h3 : D.map (fun x : Nat × DocumentInfo × ℚ => x.2.1) =
        (docs.zip scores).map Prod.fst := by
      have : (fun x : Nat × DocumentInfo × ℚ => x.2.1) = Prod.fst ∘ Prod.snd := rfl
      rw [this, ← List.map_map, decorate_map_snd]
    have h4 : ((docs.zip scores).map Prod.fst).Sublist docs := map_fst_zip_sublist _ _
    exact h1.subperm.trans (h2.subperm.trans (h3 ▸ h4.subperm))

theorem clientRerank_length_le (scores : List ℚ) (docs : List DocumentInfo) :
    (clientRerank scores docs).length ≤ RERANKER_N := by
  unfold clientRerank clientRerankAux
  by_cases h : docs = []
  · simp [if_pos h]
  · simp only [if_neg h, List.length_map]
    exact (List.length_take_le RERANKER_N _)

/-- The decorated client reranker output is strictly ordered by (score
descending, input position ascending) — Python's stable descending sort. -/
theorem clientRerankAux_pairwise (scores : List ℚ) (docs : List DocumentInfo) :
    (clientRerankAux scores docs).Pairwise
      (fun x y => y.2.2 < x.2.2 ∨ (x.2.2 = y.2.2 ∧ x.1 < y.1)) := by
  unfold clientRerankAux
  by_cases h : docs = []
  · simp [if_pos h]
  · simp only [if_neg h]
    unfold pySortDesc
    set D := decorate 0 (docs.zip scores) with hD
    set S := D.insertionSort (sortRel Prod.snd) with hS
    have hsorted : S.Pairwise (sortRel Prod.snd) :=
      D.sorted_insertionSort (sortRel Prod.snd)
    have hnodup : (S.map Prod.fst).Nodup := by
      have hperm : (S.map Prod.fst).Perm (D.map Prod.fst) :=
        (D.perm_insertionSort (sortRel Prod.snd)).map _
      exact hperm.nodup_iff.mpr (decorate_map_fst_nodup 0 _)
    have hne : S.Pairwise (fun x y : Nat × DocumentInfo × ℚ => x.1 ≠ y.1) :=
      List.pairwise_map.mp hnodup
    have hcomb := hsorted.and hne
    have htake := hcomb.sublist (List.take_sublist RERANKER_N S)
    refine htake.imp ?_
    rintro x y ⟨hr | ⟨he, hle⟩, hne1⟩
    · exact Or.inl hr
    · exact Or.inr ⟨he, Nat.lt_of_le_of_ne hle hne1⟩

/-! ## C2: the rerankers are refinements -/

/-- **C2.** Both rerankers are pure refinements of their input.  Monolithic
(`reranker.ReRanker.rerank`): for every query, candidate list and score list,
the output is a sub-permutation of the input (no additions, no duplications),
is truncated to the configured `RERANKER_TOP_N`, and — through its decorated
form `rerankAux`, of which the output is the projection — is ordered by score
strictly descending with ties broken by input position (stable descending
sort); an empty candidate list yields an empty list.  Client
(`client_components.RAGCore._rerank_documents`): the same four facts, with
truncation to `RERANKER_N` and the decorated form `clientRerankAux`; an empty
candidate list yields an empty list. -/
theorem c2_reranker_refinement (query : String) (scores : List ℚ) (docs : List Document)
    (cscores : List ℚ) (cdocs : List DocumentInfo) :
    (rerank query scores docs RERANKER_TOP_N =
      (rerankAux query scores docs RERANKER_TOP_N).map (fun x => x.2.2) ∧
    (rerank query scores docs RERANKER_TOP_N).Subperm docs ∧
    (rerank query scores docs RERANKER_TOP_N).length ≤ RERANKER_TOP_N ∧
    (rerankAux query scores docs RERANKER_TOP_N).Pairwise
      (fun x y => y.2.1 < x.2.1 ∨ (x.2.1 = y.2.1 ∧ x.1 < y.1)) ∧
    rerank query scores ([] : List Document) RERANKER_TOP_N = []) ∧
    (clientRerank cscores cdocs =
      (clientRerankAux cscores cdocs).map (fun x => x.2.1) ∧
    (clientRerank cscores cdocs).Subperm cdocs ∧
    (clientRerank cscores cdocs).length ≤ RERANKER_N ∧
    (clientRerankAux cscores cdocs).Pairwise
      (fun x y => y.2.2 < x.2.2 ∨ (x.2.2 = y.2.2 ∧ x.1 < y.1)) ∧
    clientRerank cscores ([] : List DocumentInfo) = []) :=
  ⟨⟨rerank_eq_map_aux query scores docs RERANKER_TOP_N,
    rerank_subperm query scores docs RERANKER_TOP_N,
    rerank_length_le query scores docs RERANKER_TOP_N,
    rerankAux_pairwise query scores docs RERANKER_TOP_N,
    by simp [rerank, rerankAux]⟩,
   ⟨clientRerank_eq_map_aux cscores cdocs,
    clientRerank_subperm cscores cdocs,
    clientRerank_length_le cscores cdocs,
    clientRerankAux_pairwise cscores cdocs,
    by simp [clientRerank, clientRerankAux]⟩⟩

/-! ## C3: the two-phase streaming protocol -/

/-- **C3.** For every query, evidence hits, scores and engine stream, the
stream produced by `stream_query_response` starts with a documents event — the
evidence bundle — and everything after it is a token event; moreover the run
equals: if retrieval-after-dedup or reranking yields no documents, a stream
holding the empty list as its only event, with no context built and the
generation engine never invoked; otherwise the reranked bundle followed by
exactly the engine's non-empty fragments, in order. -/
theorem c3_two_phase_streaming (query : String) (retrieved : List Document)
    (ce : String → String → ℚ) (llmStream : List String) :
    (∃ l rest, (streamQueryResponse query retrieved ce llmStream).events = .docs l :: rest ∧
      ∀ e ∈ rest, ∃ t, e = .token t) ∧
    streamQueryResponse query retrieved ce llmStream =
      (if dedupDocs retrieved = [] ∨
          rerank query ((dedupDocs retrieved).map fun d => ce query d.page_content)
            (dedupDocs retrieved) RERANKER_TOP_N = [] then
        ⟨[.docs []], none, false⟩
       else
        ⟨.docs (rerank query ((dedupDocs retrieved).map fun d => ce query d.page_content)
            (dedupDocs retrieved) RERANKER_TOP_N) ::
          (llmStream.filter fun t => !(t == "")).map .token,
         some (monoFormatContext (rerank query
            ((dedupDocs retrieved).map fun d => ce query d.page_content)
            (dedupDocs retrieved) RERANKER_TOP_N)), true⟩) := by
  have heq : streamQueryResponse query retrieved ce llmStream =
      (if dedupDocs retrieved = [] ∨
          rerank query ((dedupDocs retrieved).map fun d => ce query d.page_content)
            (dedupDocs retrieved) RERANKER_TOP_N = [] then
        ⟨[.docs []], none, false⟩
       else
        ⟨.docs (rerank query ((dedupDocs retrieved).map fun d => ce query d.page_content)
            (dedupDocs retrieved) RERANKER_TOP_N) ::
          (llmStream.filter fun t => !(t == "")).map .token,
         some (monoFormatContext (rerank query
            ((dedupDocs retrieved).map fun d => ce query d.page_content)
            (dedupDocs retrieved) RERANKER_TOP_N)), true⟩) := by
    by_cases h1 : dedupDocs retrieved = []
    · have h2 : rerank query ((dedupDocs retrieved).map fun d => ce query d.page_content)
          (dedupDocs retrieved) RERANKER_TOP_N = [] := by
        rw [h1]; simp [rerank, rerankAux]
      simp [streamQueryResponse, h1, h2]
    · by_cases h2 : rerank query ((dedupDocs retrieved).map fun d => ce query d.page_content)
          (dedupDocs retrieved) RERANKER_TOP_N = []
      · simp [streamQueryResponse, h1, h2]
      · simp [streamQueryResponse, h1, h2]
  refine ⟨?_, heq⟩
  by_cases h : dedupDocs retrieved = [] ∨
      rerank query ((dedupDocs retrieved).map fun d => ce query d.page_content)
        (dedupDocs retrieved) RERANKER_TOP_N = []
  · refine ⟨[], [], ?_, by simp⟩
    rw [heq, if_pos h]
  · refine ⟨rerank query ((dedupDocs retrieved).map fun d => ce query d.page_content)
        (dedupDocs retrieved) RERANKER_TOP_N,
      (llmStream.filter fun t => !(t == "")).map .token, ?_, ?_⟩
    · rw [heq, if_neg h]
    · intro e he
      rw [List.mem_map] at he
      obtain ⟨t, _, rfl⟩ := he
      exact ⟨t, rfl⟩

/-! ## Helper lemmas: the Policy B verification loop -/

theorem verifyLoop_ok_of_total (ε : Type) (llmT : String → String) (claim : String) :
    ∀ (docs : List DocumentInfo) (acc : List CMetadata × List CMetadata),
      verifyLoop (fun p => (Except.ok (llmT p) : Except ε String)) claim acc docs =
        .ok (acc.1 ++ (docs.filter fun d =>
               replyAffirms (llmT (verificationPrompt d.page_content claim))).map (fun d => d.metadata),
             acc.2 ++ (docs.filter fun d =>
               !replyAffirms (llmT (verificationPrompt d.page_content claim))).map (fun d => d.metadata)) := by
  intro docs
  induction docs with
  | nil => intro acc; simp [verifyLoop]
  | cons doc rest ih =>
    intro acc
    by_cases h : replyAffirms (llmT (verificationPrompt doc.page_content claim)) = true
    · simp [verifyLoop, h, ih, List.filter_cons]
    · simp only [Bool.not_eq_true] at h
      simp [verifyLoop, h, ih, List.filter_cons]

theorem verifyLoop_ok_iff (ε : Type) (llm : String → Except ε String) (claim : String) :
    ∀ (docs : List DocumentInfo) (acc : List CMetadata × List CMetadata),
      (∃ p, verifyLoop llm claim acc docs = .ok p) ↔
        ∀ d ∈ docs, ∃ r, llm (verificationPrompt d.page_content claim) = .ok r := by
  intro docs
  induction docs with
  | nil => intro acc; simp [verifyLoop]
  | cons doc rest ih =>
    intro acc
    cases hcall : llm (verificationPrompt doc.page_content claim) with
    | error e =>
      constructor
      · rintro ⟨p, hp⟩
        rw [show verifyLoop llm claim acc (doc :: rest) = .error e from by
          simp [verifyLoop, hcall]] at hp
        cases hp
      · intro hall
        obtain ⟨r, hr⟩ := hall doc (by simp)
        rw [hcall] at hr
        cases hr
    | ok r =>
      have hstep : verifyLoop llm claim acc (doc :: rest) =
          if replyAffirms r then verifyLoop llm claim (acc.1 ++ [doc.metadata], acc.2) rest
          else verifyLoop llm claim (acc.1, acc.2 ++ [doc.metadata]) rest := by
        simp [verifyLoop, hcall]
      constructor
      · rintro ⟨p, hp⟩
        rw [hstep] at hp
        intro d hd
        rcases List.mem_cons.mp hd with rfl | hd
        · exact ⟨r, hcall⟩
        · by_cases haff : replyAffirms r = true
          · rw [if_pos haff] at hp
            exact (ih _).mp ⟨p, hp⟩ d hd
          · rw [if_neg haff] at hp
            exact (ih _).mp ⟨p, hp⟩ d hd
      · intro hall
        rw [hstep]
        by_cases haff : replyAffirms r = true
        · rw [if_pos haff]
          exact (ih _).mpr fun d hd => hall d (List.mem_cons_of_mem _ hd)
        · rw [if_neg haff]
          exact (ih _).mpr fun d hd => hall d (List.mem_cons_of_mem _ hd)
/-! ## C4: Policy B conservative unanimity (code bug) -/

set_option maxRecDepth 8000 in
/-- **C4 (code bug).**  The unanimity rule the claim states is verbatim in the
source (`is_fully_verified = len(verified_sources) > 0 and
len(unverified_sources) == 0`, client_components.py line 253), but it is
unreachable: `verify` raises `NameError` at `claim = re.sub(...)` (line 211 —
the module never imports `re`) on every non-canonical answer, before any
engine call, so `is_fully_verified` is never computed on the per-chunk path.
First conjunct: that failing input evaluated in the embedding — for every
engine and every bundle the verifier errors with the `NameError`.  Second
conjunct: the dead loop-and-verdict text (`perChunkVerdict`) does satisfy the
claimed rule: with a total engine, `verified_sources`/`unverified_sources`
are the affirmed/non-affirmed chunks' metadata and `is_fully_verified` is
true exactly when the affirmed set is non-empty and the non-affirmed set is
empty.  Third conjunct: the claim's one-affirm/one-deny instance on that dead
code yields `is_fully_verified = false`. -/
theorem c4_policyB_unanimity_code_bug :
    (∀ (ε : Type) (llm : String → Except ε String) (source_docs : List DocumentInfo),
      clientVerify llm "Ankara bir başkenttir." source_docs = .error (.nameError "re")) ∧
    (∀ (ε : Type) (llmT : String → String) (raw_answer claim : String)
        (source_docs : List DocumentInfo),
      ∃ resp : FinalResponse,
        perChunkVerdict (fun p => (Except.ok (llmT p) : Except ε String)) raw_answer claim
          source_docs = .ok resp ∧
        resp.verified_sources = (source_docs.filter fun d =>
          replyAffirms (llmT (verificationPrompt d.page_content claim))).map
            (fun d => d.metadata) ∧
        resp.unverified_sources = (source_docs.filter fun d =>
          !replyAffirms (llmT (verificationPrompt d.page_content claim))).map
            (fun d => d.metadata) ∧
        (resp.is_fully_verified = true ↔
          (source_docs.filter fun d =>
            replyAffirms (llmT (verificationPrompt d.page_content claim))) ≠ [] ∧
          (source_docs.filter fun d =>
            !replyAffirms (llmT (verificationPrompt d.page_content claim))) = [])) ∧
    perChunkVerdict (fun p => (Except.ok
        ((fun q => if q = verificationPrompt "Destekleyen kaynak metni."
            "Ankara bir başkenttir." then "EVET" else "HAYIR") p) : Except Unit String))
      "Ankara bir başkenttir." "Ankara bir başkenttir."
      [⟨"Destekleyen kaynak metni.", ⟨some "K1", some "Y1", some 1⟩⟩,
       ⟨"Desteklemeyen kaynak metni.", ⟨some "K2", some "Y2", some 2⟩⟩] =
      .ok ⟨"Ankara bir başkenttir.", [⟨some "K1", some "Y1", some 1⟩],
           [⟨some "K2", some "Y2", some 2⟩], false, "Ankara bir başkenttir."⟩ := by
  refine ⟨?_, ?_, by rfl⟩
  · intro ε llm source_docs
    unfold clientVerify
    rw [show pyInStr canonicalNotFound "Ankara bir başkenttir." = false from by decide]
    simp
  · intro ε llmT raw_answer claim source_docs
    have hloop := verifyLoop_ok_of_total ε llmT claim source_docs ([], [])
    refine ⟨⟨raw_answer,
        (source_docs.filter fun d =>
          replyAffirms (llmT (verificationPrompt d.page_content claim))).map
            (fun d => d.metadata),
        (source_docs.filter fun d =>
          !replyAffirms (llmT (verificationPrompt d.page_content claim))).map
            (fun d => d.metadata),
        decide (0 < ((source_docs.filter fun d =>
          replyAffirms (llmT (verificationPrompt d.page_content claim))).map
            (fun d => d.metadata)).length) &&
        decide (((source_docs.filter fun d =>
          !replyAffirms (llmT (verificationPrompt d.page_content claim))).map
            (fun d => d.metadata)).length = 0),
        raw_answer⟩, ?_, rfl, rfl, ?_⟩
    · unfold perChunkVerdict
      rw [hloop]
      simp
    · simp only [Bool.and_eq_true, decide_eq_true_eq, List.length_map]
      rw [List.length_pos, List.length_eq_zero]

/-! ## C9: per-chunk verification fault isolation (corrected) -/

/-- **C9, counterexample.**  The claim says a single chunk's erroring
verification call is classified "unverified" while the verdict for the
remaining chunks is still produced.  With two evidence chunks and an engine
that errors exactly on the first chunk's verification prompt, `verify`
produces no verdict at all — and the error it raises is not even the
engine's: the `NameError` for `re` (client_components.py line 211) fires
before any engine call. -/
theorem c9_counterexample :
    clientVerify (fun p => (if p = verificationPrompt "Birinci kaynak metni."
          (stripClaim "Ankara bir başkenttir.") then .error () else .ok "EVET" : Except Unit String))
      "Ankara bir başkenttir."
      [⟨"Birinci kaynak metni.", ⟨some "K1", some "Y1", some 1⟩⟩,
       ⟨"İkinci kaynak metni.", ⟨some "K2", some "Y2", some 2⟩⟩] =
      .error (.nameError "re") ∧
    ∀ resp : FinalResponse,
      clientVerify (fun p => (if p = verificationPrompt "Birinci kaynak metni."
            (stripClaim "Ankara bir başkenttir.") then .error () else .ok "EVET" : Except Unit String))
        "Ankara bir başkenttir."
        [⟨"Birinci kaynak metni.", ⟨some "K1", some "Y1", some 1⟩⟩,
         ⟨"İkinci kaynak metni.", ⟨some "K2", some "Y2", some 2⟩⟩] ≠ .ok resp := by
  have h0 : clientVerify (fun p => (if p = verificationPrompt "Birinci kaynak metni."
        (stripClaim "Ankara bir başkenttir.") then .error () else .ok "EVET" : Except Unit String))
      "Ankara bir başkenttir."
      [⟨"Birinci kaynak metni.", ⟨some "K1", some "Y1", some 1⟩⟩,
       ⟨"İkinci kaynak metni.", ⟨some "K2", some "Y2", some 2⟩⟩] =
      .error (.nameError "re") := by rfl
  refine ⟨h0, fun resp h => ?_⟩
  rw [h0] at h
  exact Except.noConfusion h

/-- **C9, amended.**  In Policy B as shipped, no per-chunk verification call
is ever made: for every answer not containing the canonical sentence,
`verify` raises the `NameError` for `re` (line 211) before the loop — for
every engine, even an always-succeeding one, and every evidence bundle — so
an erroring verification call cannot occur there, no chunk is classified
"unverified" and no verdict is produced. -/
theorem c9_fault_isolation_amended (ε : Type) (llm : String → Except ε String)
    (raw_answer : String) (source_docs : List DocumentInfo)
    (h1 : pyInStr canonicalNotFound raw_answer = false) :
    clientVerify llm raw_answer source_docs = .error (.nameError "re") := by
  unfold clientVerify
  rw [h1]
  simp

/-- **C9, amended claim witness**: the amended theorem applied concretely to a
one-chunk bundle and an always-succeeding engine. -/
theorem c9_fault_isolation_amended_witness :
    clientVerify (fun _ => (.ok "EVET" : Except Unit String)) "Ankara bir başkenttir."
      [⟨"Kaynak metni.", ⟨some "K1", some "Y1", some 1⟩⟩] = .error (.nameError "re") :=
  c9_fault_isolation_amended Unit (fun _ => (.ok "EVET" : Except Unit String))
    "Ankara bir başkenttir." [⟨"Kaynak metni.", ⟨some "K1", some "Y1", some 1⟩⟩]
    (by decide)

/-! ## C8: the same-bundle invariant (code bug on the client path) -/

/-- **C8 (code bug).**  Monolithic path: the invariant holds — when reranking
leaves documents, the stream's first event carries the bundle `R`, the
generation context is `monoFormatContext R`, and `_handle_query` passes that
same `R` to `verify_and_present` with the accumulated answer.  Client path:
the handover the claim describes (`generate_answer` returning the reranked
bundle alongside the raw answer, `_handle_query` handing it to `verify`)
never happens — `generate_answer` raises `AttributeError` for `formatter`
(client_components.py line 164) before invoking the engine, for every engine,
and the handler crashes with it; nothing reaches the verifier. -/
theorem c8_same_bundle_invariant
    (query : String) (retrieved : List Document) (ce : String → String → ℚ)
    (llmStream : List String) (cq : String) (cretrieved : List DocumentInfo)
    (cce : String → String → ℚ) (llmGen : String → String) (ε : Type)
    (llmVer : String → Except ε String)
    (h1 : rerank query ((dedupDocs retrieved).map fun d => ce query d.page_content)
      (dedupDocs retrieved) RERANKER_TOP_N ≠ []) :
    (∃ R, R ≠ [] ∧
      (streamQueryResponse query retrieved ce llmStream).events =
        .docs R :: (llmStream.filter fun t => !(t == "")).map .token ∧
      (streamQueryResponse query retrieved ce llmStream).contextBuilt =
        some (monoFormatContext R) ∧
      monoHandleQuery query retrieved ce llmStream =
        some (R, verifyAndPresent
          (tokensText ((llmStream.filter fun t => !(t == "")).map .token)) R)) ∧
    clientGenerateAnswer cce llmGen cq cretrieved = .error (.attributeError "formatter") ∧
    clientHandleQuery cce llmGen llmVer cq cretrieved =
      (if cretrieved = [] then .noDocs else .crashed (.attributeError "formatter")) := by
  refine ⟨?_, rfl, ?_⟩
  · have hdedup : dedupDocs retrieved ≠ [] := by
      intro h
      apply h1
      rw [h]
      simp [rerank, rerankAux]
    have hrun : streamQueryResponse query retrieved ce llmStream =
        ⟨.docs (rerank query ((dedupDocs retrieved).map fun d => ce query d.page_content)
            (dedupDocs retrieved) RERANKER_TOP_N) ::
          (llmStream.filter fun t => !(t == "")).map .token,
         some (monoFormatContext (rerank query
            ((dedupDocs retrieved).map fun d => ce query d.page_content)
            (dedupDocs retrieved) RERANKER_TOP_N)), true⟩ := by
      simp [streamQueryResponse, hdedup, h1]
    refine ⟨rerank query ((dedupDocs retrieved).map fun d => ce query d.page_content)
        (dedupDocs retrieved) RERANKER_TOP_N, h1, ?_, ?_, ?_⟩
    · rw [hrun]
    · rw [hrun]
    · obtain ⟨a, rr', hrr⟩ : ∃ a l, rerank query
          ((dedupDocs retrieved).map fun d => ce query d.page_content)
          (dedupDocs retrieved) RERANKER_TOP_N = a :: l := by
        cases hc : rerank query ((dedupDocs retrieved).map fun d => ce query d.page_content)
            (dedupDocs retrieved) RERANKER_TOP_N with
        | nil => exact absurd hc h1
        | cons a l => exact ⟨a, l, rfl⟩
      unfold monoHandleQuery
      rw [hrun, hrr]
  · by_cases hc : cretrieved = []
    · simp [clientHandleQuery, hc]
    · simp [clientHandleQuery, hc, clientGenerateAnswer]

/-- **C8, witness**: the theorem applied to concrete one-document inputs on
both paths: the monolithic handler produces its result, and the client
handler crashes with the `AttributeError`. -/
theorem c8_same_bundle_invariant_witness :
    (monoHandleQuery "Soru" [⟨"İçerik metni.", ⟨some "T", some "A", some "k.pdf", some 5⟩⟩]
      (fun _ _ => (0 : ℚ)) ["parça"]).isSome = true ∧
    clientHandleQuery (fun _ _ => (0 : ℚ)) (fun _ => "Cevap.")
      (fun _ => (.ok "EVET" : Except Unit String)) "Soru"
      [⟨"İçerik metni.", ⟨some "T", some "A", some 5⟩⟩] =
      .crashed (.attributeError "formatter") := by
  obtain ⟨⟨R, hne, hev, hctx, hmono⟩, hgen, hclient⟩ :=
    c8_same_bundle_invariant "Soru"
      [⟨"İçerik metni.", ⟨some "T", some "A", some "k.pdf", some 5⟩⟩]
      (fun _ _ => (0 : ℚ)) ["parça"] "Soru"
      [⟨"İçerik metni.", ⟨some "T", some "A", some 5⟩⟩]
      (fun _ _ => (0 : ℚ)) (fun _ => "Cevap.") Unit
      (fun _ => (.ok "EVET" : Except Unit String)) (by decide)
  constructor
  · rw [hmono]; rfl
  · rw [hclient]; rfl

end LLMBookLib
